import Mathlib

/-!
Verification of the action-canonicalization and step-loop controller of the
osuniverse agents (claude_computer_use, cua and qwen agents).

The Python sources are shallowly embedded:
* Python dict/JSON values are modelled by `JVal` (strings, integers, arrays,
  ordered string-keyed objects); dict access that can raise `KeyError`,
  `IndexError` or `TypeError` returns `Except PyErr`.
* Python integer floor division `//` and `%` with a positive divisor agree
  with Lean's `Int` `/` (`Int.ediv`) and `%` (`Int.emod`), which are used
  throughout (all divisors in the sources are positive literals).
* Exceptions are values of `PyErr`; `str(e)` is modelled by `errStr`
  (string renderings are approximations of CPython's, faithful in what the
  theorems use: which exception class propagates and which message it holds).
* The tenacity `retry(stop=stop_after_attempt(5))` decorator is modelled by
  `tenacityRetry5`: up to five attempts, a fifth failure raising
  `RetryError` around the last attempt's exception (no `reraise=True` in the
  sources, so the original exception is not re-raised).
-/

/-- Python/JSON values as passed around by the agents: strings, integers,
arrays, and insertion-ordered string-keyed dictionaries. -/
inductive JVal where
  | s (v : String)
  | n (v : Int)
  | arr (l : List JVal)
  | obj (l : List (String × JVal))

/-- Python exceptions raised in the modelled code paths. -/
inductive PyErr where
  | err (msg : String)
  | keyError (k : String)
  | systemError (msg : String)
  | valueError (msg : String)
  | retryError (inner : PyErr)
deriving DecidableEq, Repr

/-- Python class name of an exception, used in `RetryError`'s rendering. -/
def pyClass : PyErr → String
  | .err _ => "Exception"
  | .keyError _ => "KeyError"
  | .systemError _ => "SystemError"
  | .valueError _ => "ValueError"
  | .retryError _ => "RetryError"

/-- Rendering of `str(e)`.  `RetryError.__str__` shows the failed attempt
future (class of the raised exception), not the original message; the
address part of CPython's `Future` repr is elided. -/
def errStr : PyErr → String
  | .err m => m
  | .keyError k => k
  | .systemError m => m
  | .valueError m => m
  | .retryError inner =>
      "RetryError[<Future state=finished raised " ++ pyClass inner ++ ">]"

/-- Dictionary read `v[k]`: `KeyError` when the key is absent, `TypeError`
when `v` is not a dict. -/
def qget (v : JVal) (k : String) : Except PyErr JVal :=
  match v with
  | .obj l =>
      match l.lookup k with
      | some x => .ok x
      | none => .error (.keyError k)
  | _ => .error (.err "TypeError: not a dict")

/-- Index read `v[i]`: `IndexError` past the end, `TypeError` on non-arrays. -/
def jidx (v : JVal) (i : Nat) : Except PyErr JVal :=
  match v with
  | .arr l =>
      match l.get? i with
      | some x => .ok x
      | none => .error (.err "IndexError")
  | _ => .error (.err "TypeError: not a list")

/-- Membership test `k in v` on a dict (False on non-dicts). -/
def qhas (v : JVal) (k : String) : Bool :=
  match v with
  | .obj l => (l.lookup k).isSome
  | _ => false

/-- Read a value that the Python code goes on to use as a `str`. -/
def asStr : JVal → Except PyErr String
  | .s v => .ok v
  | _ => .error (.err "TypeError: not a str")

/-- Read a value that the Python code goes on to use as an `int`. -/
def asInt : JVal → Except PyErr Int
  | .n v => .ok v
  | _ => .error (.err "TypeError: not an int")

/-- Python dict assignment `d[k] = v`: replaces in place if the key exists,
otherwise appends (insertion order). -/
def setk : List (String × JVal) → String → JVal → List (String × JVal)
  | [], k, v => [(k, v)]
  | (k0, v0) :: rest, k, v =>
      if k0 = k then (k0, v) :: rest else (k0, v0) :: setk rest k v

/-- Python `del d[k]`: removes the first (only) binding of the key. -/
def delk : List (String × JVal) → String → List (String × JVal)
  | [], _ => []
  | (k0, v0) :: rest, k =>
      if k0 = k then rest else (k0, v0) :: delk rest k

/-- Skillpacks `V1Action`: a canonical action name with its parameters. -/
structure V1Action where
  name : String
  parameters : List (String × JVal)

/-- Taskara task statuses used by the agents. -/
inductive TaskStatus where
  | inProgress
  | canceling
  | canceled
  | finished
  | failed
deriving DecidableEq, Repr

/-- The canonical action vocabulary fixed by the spec. -/
def canonicalNames : List String :=
  ["click", "double_click", "drag_mouse", "move_mouse", "type_text",
   "hot_key", "scroll", "wait", "take_screenshots", "result"]

/-- Leading-whitespace removal on a character list. -/
def dropLeadingWS : List Char → List Char
  | [] => []
  | c :: rest => if c.isWhitespace then dropLeadingWS rest else c :: rest

/-- Python `str.strip()`: remove leading and trailing whitespace. -/
def pyStrip (s : String) : String :=
  String.mk ((dropLeadingWS (dropLeadingWS s.toList).reverse).reverse)

/-- Python `str.lower()` (ASCII range, all the keys the agents handle). -/
def pyLower (s : String) : String :=
  String.mk (s.toList.map Char.toLower)

/-- Splitting on a single separator character: the behaviour of Python
`str.split(sep)` for the one-character separators the sources use. -/
def pySplitAux (sep : Char) : List Char → List Char → List (List Char)
  | [], acc => [acc.reverse]
  | c :: rest, acc =>
      if c = sep then acc.reverse :: pySplitAux sep rest []
      else pySplitAux sep rest (c :: acc)

/-- Python `s.split(sep)` for a one-character separator. -/
def pySplit (sep : Char) (s : String) : List String :=
  (pySplitAux sep s.toList []).map String.mk

/-- Python `s.replace("_", "")`: delete every underscore. -/
def pyRemoveUnderscores (s : String) : String :=
  String.mk (s.toList.filter (fun c => ¬ c = '_'))

/-! ## Context Window Manager
`ClaudeComputerUse._maybe_filter_to_n_most_recent_images`
(`claude_computer_use/agent.py`, lines 374-423). -/

/-- Content item inside a `tool_result` block: an `image` block or anything
else. -/
inductive TRItem where
  | image
  | otherTR
deriving DecidableEq, Repr

/-- An item of a list-typed message content: a `tool_result` block (whose own
content is a list, `some items`, or a non-list, `none`) or any other block. -/
inductive MsgItem where
  | toolResult (content : Option (List TRItem))
  | otherItem
deriving DecidableEq, Repr

/-- Message content: either a list of blocks or a non-list (string) value. -/
inductive MsgContent where
  | blocks (l : List MsgItem)
  | nonList
deriving DecidableEq, Repr

/-- One entry of the `messages` history handed to the Anthropic client. -/
structure BetaMessage where
  content : MsgContent
deriving DecidableEq, Repr

/-- Collection of the `tool_result` blocks of one message, in order; skips
messages whose content is not a list, mirroring the comprehension in the
source. -/
def toolResultBlocksOf (m : BetaMessage) : List (Option (List TRItem)) :=
  match m.content with
  | .blocks l =>
      l.filterMap (fun it =>
        match it with
        | .toolResult c => some c
        | .otherItem => none)
  | .nonList => []

/-- All `tool_result` blocks of the history, oldest first. -/
def toolResultBlocks : List BetaMessage → List (Option (List TRItem))
  | [] => []
  | m :: rest => toolResultBlocksOf m ++ toolResultBlocks rest

/-- Number of image blocks in a list of tool-result content items. -/
def imgCount : List TRItem → Nat
  | [] => 0
  | .image :: r => imgCount r + 1
  | .otherTR :: r => imgCount r

/-- Images contributed by one `tool_result` block (`tool_result.get("content",
[])`); a non-list content contributes none. -/
def trImages : Option (List TRItem) → Nat
  | some l => imgCount l
  | none => 0

/-- Sum of the images of a run of tool-result blocks. -/
def sumImages : List (Option (List TRItem)) → Nat
  | [] => 0
  | c :: rest => trImages c + sumImages rest

/-- The source's `total_images`: images summed over all tool-result blocks. -/
def countTotalImages (msgs : List BetaMessage) : Nat :=
  sumImages (toolResultBlocks msgs)

/-- The in-place removal loop over one tool-result content list: while the
remaining-removal counter is positive, image blocks are skipped; everything
else is kept.  Returns the updated counter and the new content. -/
def trimList : Int → List TRItem → Int × List TRItem
  | n, [] => (n, [])
  | n, .image :: rest =>
      if 0 < n then trimList (n - 1) rest
      else ((trimList n rest).1, .image :: (trimList n rest).2)
  | n, .otherTR :: rest =>
      ((trimList n rest).1, .otherTR :: (trimList n rest).2)

/-- Removal applied to one tool-result block; non-list contents are skipped
(`isinstance(tool_result.get("content"), list)`). -/
def trimTR : Int → Option (List TRItem) → Int × Option (List TRItem)
  | n, some l => ((trimList n l).1, some (trimList n l).2)
  | n, none => (n, none)

/-- Removal over the items of one message, counter threaded left to right. -/
def trimItems : Int → List MsgItem → Int × List MsgItem
  | n, [] => (n, [])
  | n, .toolResult c :: rest =>
      ((trimItems (trimTR n c).1 rest).1,
       .toolResult (trimTR n c).2 :: (trimItems (trimTR n c).1 rest).2)
  | n, .otherItem :: rest =>
      ((trimItems n rest).1, .otherItem :: (trimItems n rest).2)

/-- Removal over one message. -/
def trimMsg : Int → BetaMessage → Int × BetaMessage
  | n, m =>
      match m.content with
      | .blocks l => ((trimItems n l).1, ⟨.blocks (trimItems n l).2⟩)
      | .nonList => (n, m)

/-- Removal over the whole history, oldest message first — the same order in
which the source collected the tool-result blocks it mutates. -/
def trimMsgs : Int → List BetaMessage → Int × List BetaMessage
  | n, [] => (n, [])
  | n, m :: rest =>
      ((trimMsgs (trimMsg n m).1 rest).1,
       (trimMsg n m).2 :: (trimMsgs (trimMsg n m).1 rest).2)

/-- Port of `_maybe_filter_to_n_most_recent_images(messages, images_to_keep,
min_removal_threshold)`: keep-zero disables trimming; otherwise
`to_remove = total - images_to_keep` is rounded down to a multiple of the
threshold (`to_remove -= to_remove % min_removal_threshold`, Python `%` with
a positive divisor = `Int.emod`) and that many oldest images are removed. -/
def maybe_filter_to_n_most_recent_images (messages : List BetaMessage)
    (images_to_keep min_removal_threshold : Nat) : List BetaMessage :=
  if images_to_keep = 0 then messages
  else
    let total := countTotalImages messages
    let toRemove : Int := (total : Int) - (images_to_keep : Int)
    let toRemove := toRemove - toRemove % (min_removal_threshold : Int)
    (trimMsgs toRemove messages).2

/-- The flattened sequence of tool-result content items of the history,
oldest first: the positions at which images live. -/
def flattenTR : List BetaMessage → List TRItem
  | [] => []
  | m :: rest =>
      (match m.content with
       | .blocks l => flattenItems l
       | .nonList => []) ++ flattenTR rest
where
  /-- Tool-result contents of one block list, in order. -/
  flattenItems : List MsgItem → List TRItem
    | [] => []
    | .toolResult (some c) :: r => c ++ flattenItems r
    | .toolResult none :: r => flattenItems r
    | .otherItem :: r => flattenItems r

/-- Removal of the `n` oldest images from a flattened content sequence,
leaving every non-image item and every newer image in place. -/
def dropOldestImages : Nat → List TRItem → List TRItem
  | _, [] => []
  | n, .image :: rest =>
      if n = 0 then .image :: rest else dropOldestImages (n - 1) rest
  | n, .otherTR :: rest => .otherTR :: dropOldestImages n rest

/-! ### Facts about the trimming pass -/

theorem imgCount_append (a b : List TRItem) :
    imgCount (a ++ b) = imgCount a + imgCount b := by
  induction a with
  | nil => simp [imgCount]
  | cons hd rest ih =>
    cases hd
    · simp only [List.cons_append, imgCount, List.append_eq, ih]
      omega
    · simp only [List.cons_append, imgCount, List.append_eq, ih]

theorem dropOldestImages_zero (l : List TRItem) : dropOldestImages 0 l = l := by
  induction l with
  | nil => rfl
  | cons hd t ih => cases hd <;> simp [dropOldestImages, ih]

theorem trimList_fst (n : Int) (l : List TRItem) :
    (trimList n l).1 = n - ↑(min n.toNat (imgCount l)) := by
  induction l generalizing n with
  | nil => simp [trimList, imgCount]
  | cons hd rest ih =>
    cases hd with
    | image =>
      by_cases h : 0 < n
      · rw [trimList, if_pos h, ih]
        simp only [imgCount]
        omega
      · rw [trimList, if_neg h]
        simp only [imgCount, ih]
        omega
    | otherTR =>
      rw [trimList]
      simp only [imgCount, ih]

theorem trimList_snd (n : Int) (l : List TRItem) :
    (trimList n l).2 = dropOldestImages n.toNat l := by
  induction l generalizing n with
  | nil => simp [trimList, dropOldestImages]
  | cons hd rest ih =>
    cases hd with
    | image =>
      by_cases h : 0 < n
      · rw [trimList, if_pos h, ih]
        have h2 : ¬ n.toNat = 0 := by omega
        have h1 : (n - 1).toNat = n.toNat - 1 := by omega
        rw [dropOldestImages, if_neg h2, h1]
      · rw [trimList, if_neg h]
        have h2 : n.toNat = 0 := by omega
        simp [ih, h2, dropOldestImages, dropOldestImages_zero]
    | otherTR =>
      rw [trimList, dropOldestImages, ih]

theorem trimList_append (n : Int) (a b : List TRItem) :
    trimList n (a ++ b) =
      ((trimList (trimList n a).1 b).1,
       (trimList n a).2 ++ (trimList (trimList n a).1 b).2) := by
  induction a generalizing n with
  | nil => simp [trimList]
  | cons hd rest ih =>
    cases hd with
    | image =>
      by_cases h : 0 < n
      · simp only [List.cons_append, trimList, if_pos h, List.append_eq, ih]
      · simp only [List.cons_append, trimList, if_neg h, List.append_eq, ih]
    | otherTR =>
      simp only [List.cons_append, trimList, List.append_eq, ih]

theorem sumImages_append (a b : List (Option (List TRItem))) :
    sumImages (a ++ b) = sumImages a + sumImages b := by
  induction a with
  | nil => simp [sumImages]
  | cons hd rest ih =>
    simp only [List.cons_append, sumImages, List.append_eq, ih]
    omega

theorem sumImages_blocksOf (l : List MsgItem) :
    sumImages (l.filterMap (fun it =>
      match it with
      | .toolResult c => some c
      | .otherItem => none)) = imgCount (flattenTR.flattenItems l) := by
  induction l with
  | nil => simp [sumImages, flattenTR.flattenItems, imgCount]
  | cons hd rest ih =>
    cases hd with
    | toolResult c =>
      cases c with
      | some c' =>
        simp only [List.filterMap_cons, sumImages, flattenTR.flattenItems,
          imgCount_append, trImages, ih]
      | none =>
        simp only [List.filterMap_cons, sumImages, flattenTR.flattenItems,
          trImages, ih]
        omega
    | otherItem =>
      simp only [List.filterMap_cons, flattenTR.flattenItems, ih]

theorem countTotalImages_eq (msgs : List BetaMessage) :
    countTotalImages msgs = imgCount (flattenTR msgs) := by
  induction msgs with
  | nil => simp [countTotalImages, toolResultBlocks, sumImages, flattenTR, imgCount]
  | cons m rest ih =>
    simp only [countTotalImages, toolResultBlocks, sumImages_append, flattenTR,
      imgCount_append]
    rw [countTotalImages] at ih
    rw [ih]
    cases hm : m.content with
    | blocks l =>
      simp only [toolResultBlocksOf, hm, sumImages_blocksOf]
    | nonList =>
      simp [toolResultBlocksOf, hm, sumImages, imgCount]

theorem imgCount_dropOldestImages (k : Nat) (l : List TRItem) :
    imgCount (dropOldestImages k l) = imgCount l - k := by
  induction l generalizing k with
  | nil => simp [dropOldestImages, imgCount]
  | cons hd rest ih =>
    cases hd with
    | image =>
      by_cases h : k = 0
      · simp [dropOldestImages, h]
      · rw [dropOldestImages, if_neg h, ih]
        simp only [imgCount]
        omega
    | otherTR =>
      rw [dropOldestImages]
      simp only [imgCount, ih]

theorem trimItems_spec (n : Int) (l : List MsgItem) :
    (trimItems n l).1 = (trimList n (flattenTR.flattenItems l)).1 ∧
    flattenTR.flattenItems (trimItems n l).2 =
      (trimList n (flattenTR.flattenItems l)).2 := by
  induction l generalizing n with
  | nil => simp [trimItems, flattenTR.flattenItems, trimList]
  | cons hd rest ih =>
    cases hd with
    | toolResult c =>
      cases c with
      | some c' =>
        simp only [trimItems, trimTR, flattenTR.flattenItems, trimList_append,
          (ih _).1, (ih _).2]
        constructor <;> trivial
      | none =>
        simp only [trimItems, trimTR, flattenTR.flattenItems, (ih _).1, (ih _).2]
        constructor <;> trivial
    | otherItem =>
      simp only [trimItems, flattenTR.flattenItems, (ih _).1, (ih _).2]
      constructor <;> trivial

theorem trimMsgs_spec (n : Int) (msgs : List BetaMessage) :
    (trimMsgs n msgs).1 = (trimList n (flattenTR msgs)).1 ∧
    flattenTR (trimMsgs n msgs).2 = (trimList n (flattenTR msgs)).2 := by
  induction msgs generalizing n with
  | nil => simp [trimMsgs, flattenTR, trimList]
  | cons m rest ih =>
    cases hm : m.content with
    | blocks l =>
      simp only [trimMsgs, trimMsg, hm, flattenTR, trimList_append,
        (trimItems_spec _ _).1, (trimItems_spec _ _).2, (ih _).1, (ih _).2]
      constructor <;> trivial
    | nonList =>
      simp only [trimMsgs, trimMsg, hm, flattenTR, (ih _).1, (ih _).2]
      constructor <;> trivial

/-- The number of images the trimmer removes: `to_remove = total -
images_to_keep` rounded down to a multiple of the threshold; clamped at zero
(a negative `to_remove` removes nothing, since the removal loop only acts
while the counter is positive). -/
def roundedRemovalCount (total keep thr : Nat) : Nat :=
  (((total : Int) - (keep : Int)) - ((total : Int) - (keep : Int)) % (thr : Int)).toNat

theorem maybe_filter_spec (msgs : List BetaMessage) (keep thr : Nat)
    (hkeep : ¬ keep = 0) :
    flattenTR (maybe_filter_to_n_most_recent_images msgs keep thr) =
      dropOldestImages (roundedRemovalCount (countTotalImages msgs) keep thr)
        (flattenTR msgs) ∧
    countTotalImages (maybe_filter_to_n_most_recent_images msgs keep thr) =
      countTotalImages msgs -
        roundedRemovalCount (countTotalImages msgs) keep thr := by
  unfold maybe_filter_to_n_most_recent_images roundedRemovalCount
  rw [if_neg hkeep]
  constructor
  · rw [(trimMsgs_spec _ _).2, trimList_snd]
  · rw [countTotalImages_eq, (trimMsgs_spec _ _).2, trimList_snd,
      imgCount_dropOldestImages, countTotalImages_eq]

/-- Concrete history with exactly ten images, used to instantiate the
context-trimming theorem. -/
def msgsTenImages : List BetaMessage :=
  [⟨.blocks [.toolResult (some (List.replicate 10 .image))]⟩]

/-- C1: for every message history the context trimmer computes
`to_remove = total_images - images_to_keep`, rounds it down to the nearest
multiple of `min_removal_threshold`, and removes exactly that many oldest
images (leaving every newer image and all non-image content intact, as the
`dropOldestImages` characterisation states); in particular any history with
`total_images = 10` trimmed with `images_to_keep = 3`,
`min_removal_threshold = 2` loses exactly the 6 oldest images and keeps 4;
and `images_to_keep = 0` returns the history unmodified. -/
theorem C1_context_trimming (msgs : List BetaMessage) (keep thr : Nat)
    (_hthr : 0 < thr) :
    (maybe_filter_to_n_most_recent_images msgs 0 thr = msgs) ∧
    (¬ keep = 0 →
      flattenTR (maybe_filter_to_n_most_recent_images msgs keep thr) =
        dropOldestImages (roundedRemovalCount (countTotalImages msgs) keep thr)
          (flattenTR msgs) ∧
      countTotalImages (maybe_filter_to_n_most_recent_images msgs keep thr) =
        countTotalImages msgs -
          roundedRemovalCount (countTotalImages msgs) keep thr) ∧
    (countTotalImages msgs = 10 →
      countTotalImages (maybe_filter_to_n_most_recent_images msgs 3 2) = 4 ∧
      flattenTR (maybe_filter_to_n_most_recent_images msgs 3 2) =
        dropOldestImages 6 (flattenTR msgs)) := by
  refine ⟨by simp [maybe_filter_to_n_most_recent_images], ?_, ?_⟩
  · intro hkeep
    exact maybe_filter_spec msgs keep thr hkeep
  · intro h10
    obtain ⟨hflat, hcount⟩ := maybe_filter_spec msgs 3 2 (by decide)
    rw [h10] at hflat hcount
    have hk : roundedRemovalCount 10 3 2 = 6 := by decide
    rw [hk] at hflat hcount
    exact ⟨hcount, hflat⟩

/-- Witness for C1 at a concrete ten-image history. -/
theorem C1_context_trimming_witness :
    countTotalImages (maybe_filter_to_n_most_recent_images msgsTenImages 3 2) = 4 ∧
    flattenTR (maybe_filter_to_n_most_recent_images msgsTenImages 3 2) =
      dropOldestImages 6 (flattenTR msgsTenImages) :=
  (C1_context_trimming msgsTenImages 3 2 (by decide)).2.2 (by decide)

/-! ## Qwen dialect: `qwen/actor/action_parser.py`, `parse_action` -/

namespace Qwen

/-- First index at which `pat` occurs as a contiguous run of `s` (the
leftmost-match rule of `re.search`/`re.findall`). -/
def strFind (pat : List Char) : List Char → Option Nat
  | [] => if pat.isPrefixOf ([] : List Char) then some 0 else none
  | c :: rest =>
      if pat.isPrefixOf (c :: rest) then some 0
      else (strFind pat rest).map (fun n => n + 1)

/-- Total length of the terminator `\n(?:</tool_call>|📐|⚗)` when one starts
at the head of `s`. -/
def termAt (s : List Char) : Option Nat :=
  if ("\n</tool_call>".toList).isPrefixOf s then some ("\n</tool_call>".toList.length)
  else if ("\n📐".toList).isPrefixOf s then some ("\n📐".toList.length)
  else if ("\n⚗".toList).isPrefixOf s then some ("\n⚗".toList.length)
  else none

/-- Earliest position (and matched length) of the terminator in `s`: the lazy
`(.*?)` capture extends exactly to the first such position. -/
def termFind : List Char → Option (Nat × Nat)
  | [] => none
  | c :: rest =>
      match termAt (c :: rest) with
      | some t => some (0, t)
      | none => (termFind rest).map (fun p => (p.1 + 1, p.2))

/-- The opening of the tool-call pattern `<tool_call>\n`. -/
def openTag : List Char := "<tool_call>\n".toList

/-- Non-overlapping matches of `<tool_call>\n(.*?)\n(?:</tool_call>|📐|⚗)`
(`re.findall` with `re.DOTALL`), returning the lazily captured groups.  The
fuel argument only bounds the recursion; every iteration consumes at least
`openTag.length` characters, so `s.length` fuel is always sufficient. -/
def extractAux : Nat → List Char → List (List Char)
  | 0, _ => []
  | fuel + 1, s =>
      match strFind openTag s with
      | none => []
      | some i =>
          let afterOpen := s.drop (i + openTag.length)
          match termFind afterOpen with
          | none => []
          | some (j, t) => afterOpen.take j :: extractAux fuel (afterOpen.drop (j + t))

/-- All captured tool-call bodies of the content. -/
def extractToolCalls (s : List Char) : List (List Char) :=
  extractAux s.length s

/-- The `thought` local: assigned (to the stripped text before the first
`<tool_call>`) only when `re.search("^(.*?)(?=<tool_call>)", content,
re.DOTALL)` matches, i.e. only when the tag occurs in the content at all. -/
def preToolThought (s : List Char) : Option String :=
  match strFind ("<tool_call>".toList) s with
  | none => none
  | some i => some (pyStrip (String.mk (s.take i)))

/-- The exception CPython raises when `return thought, output` (or the
`terminate` branch) reads the never-assigned `thought` local. -/
def unboundLocalThought : PyErr :=
  .err "UnboundLocalError: local variable thought referenced before assignment"

/-- Reads `arguments["coordinate"][0]` and `[1]` into `x`/`y` parameters
appended after `base`. -/
def withXY (args : JVal) (base : List (String × JVal)) :
    Except PyErr (List (String × JVal)) :=
  match qget args "coordinate" with
  | .error e => .error e
  | .ok c =>
      match jidx c 0 with
      | .error e => .error e
      | .ok x =>
          match jidx c 1 with
          | .error e => .error e
          | .ok y => .ok (base ++ [("x", x), ("y", y)])

/-- The `elif` chain of `parse_action` (lines 84-140): one dialect action
name plus its `arguments` dict to one canonical `V1Action`.  An action name
matching no branch falls through with its `parameters` left `{}` and its
dialect name passed through unchanged into `V1Action`. -/
def mapAction (thought? : Option String) (actionName : String) (args : JVal) :
    Except PyErr V1Action :=
  if actionName = "key" then
    match qget args "keys" with
    | .error e => .error e
    | .ok k => .ok ⟨"hot_key", [("keys", k)]⟩
  else if actionName = "type" then
    match qget args "text" with
    | .error e => .error e
    | .ok t => .ok ⟨"type_text", [("text", t)]⟩
  else if actionName = "mouse_move" then
    match withXY args [] with
    | .error e => .error e
    | .ok ps => .ok ⟨"move_mouse", ps⟩
  else if actionName = "left_click" then
    match (if qhas args "coordinate" then withXY args [("button", .s "left")]
           else .ok [("button", .s "left")]) with
    | .error e => .error e
    | .ok ps => .ok ⟨"click", ps⟩
  else if actionName = "left_click_drag" then
    match (if qhas args "coordinate" then withXY args [] else .ok []) with
    | .error e => .error e
    | .ok ps => .ok ⟨"drag_mouse", ps⟩
  else if actionName = "right_click" then
    match (if qhas args "coordinate" then withXY args [("button", .s "right")]
           else .ok [("button", .s "right")]) with
    | .error e => .error e
    | .ok ps => .ok ⟨"click", ps⟩
  else if actionName = "middle_click" then
    match (if qhas args "coordinate" then withXY args [("button", .s "middle")]
           else .ok [("button", .s "middle")]) with
    | .error e => .error e
    | .ok ps => .ok ⟨"click", ps⟩
  else if actionName = "double_click" then
    match (if qhas args "coordinate" then withXY args [("button", .s "left")]
           else .ok [("button", .s "left")]) with
    | .error e => .error e
    | .ok ps => .ok ⟨"double_click", ps⟩
  else if actionName = "scroll" then
    match qget args "pixels" with
    | .error e => .error e
    | .ok pv =>
        match asInt pv with
        | .error e => .error e
        | .ok p => .ok ⟨"scroll", [("clicks", .n (p / 10))]⟩
  else if actionName = "wait" then
    match qget args "time" with
    | .error e => .error e
    | .ok t => .ok ⟨"wait", [("seconds", t)]⟩
  else if actionName = "terminate" then
    match qget args "status" with
    | .error e => .error e
    | .ok sv =>
        match asStr sv with
        | .error e => .error e
        | .ok stat =>
            match thought? with
            | none => .error unboundLocalThought
            | some th => .ok ⟨"result", [("value", .s ("Status: " ++ stat ++ " " ++ th))]⟩
  else .ok ⟨actionName, []⟩

/-- One iteration of the `for tool_used in tools_used` loop: decode the JSON,
read `["arguments"]["action"]` and map it (a non-string action name would
fail `V1Action` validation, modelled as the error at the read). -/
def toolStep (thought? : Option String) (j : JVal) : Except PyErr V1Action :=
  match qget j "arguments" with
  | .error e => .error e
  | .ok args =>
      match qget args "action" with
      | .error e => .error e
      | .ok av =>
          match asStr av with
          | .error e => .error e
          | .ok name => mapAction thought? name args

/-- The loop over all extracted tool calls, accumulating `output`. -/
def parseTools (thought? : Option String) (loads : String → JVal) :
    List String → Except PyErr (List V1Action)
  | [] => .ok []
  | s :: rest =>
      match toolStep thought? (loads s) with
      | .error e => .error e
      | .ok a =>
          match parseTools thought? loads rest with
          | .error e => .error e
          | .ok l => .ok (a :: l)

/-- Port of `parse_action(content)`.  `json_repair.loads` is the `loads`
parameter (it is not modelled; the theorems either quantify over it or stub
it).  The final `return thought, output` reads `thought`, raising
`UnboundLocalError` whenever the content held no `<tool_call>` tag. -/
def parse_action (loads : String → JVal) (content : String) :
    Except PyErr (String × List V1Action) :=
  let toolsUsed := (extractToolCalls content.toList).map (fun l => pyStrip (String.mk l))
  let thought? := preToolThought content.toList
  match parseTools thought? loads toolsUsed with
  | .error e => .error e
  | .ok acts =>
      match thought? with
      | none => .error unboundLocalThought
      | some t => .ok (t, acts)

end Qwen

/-! ## CUA dialect: `cua/actor/action_parser.py`, `parse_action` -/

namespace Cua

/-- The fixed key-alias table `CUA_KEY_TO_AGENTDESK_KEY`. -/
def CUA_KEY_TO_AGENTDESK_KEY : List (String × String) :=
  [("/", "/"),
   ("\\", "\\\\"),
   ("alt", "alt"),
   ("arrowdown", "down"),
   ("arrowleft", "left"),
   ("arrowright", "right"),
   ("arrowup", "up"),
   ("backspace", "backspace"),
   ("capslock", "capslock"),
   ("cmd", "command"),
   ("ctrl", "ctrl"),
   ("delete", "delete"),
   ("end", "end"),
   ("enter", "enter"),
   ("esc", "escape"),
   ("home", "home"),
   ("insert", "insert"),
   ("option", "alt"),
   ("pagedown", "pagedown"),
   ("pageup", "pageup"),
   ("shift", "shift"),
   ("space", "space"),
   ("super", "command"),
   ("tab", "tab"),
   ("win", "win")]

/-- The `keypress` loop: each key is lower-cased, then alias-resolved through
the table when present, otherwise passed through (lower-cased, underscores
untouched).  Non-string keys would raise `AttributeError` at `.lower()`. -/
def mapKeys : List JVal → Except PyErr (List JVal)
  | [] => .ok []
  | .s k :: rest =>
      match mapKeys rest with
      | .error e => .error e
      | .ok l =>
          match CUA_KEY_TO_AGENTDESK_KEY.lookup (pyLower k) with
          | some m => .ok (.s m :: l)
          | none => .ok (.s (pyLower k) :: l)
  | _ :: _ => .error (.err "AttributeError: lower")

/-- Port of `parse_action(action_type, action_args)`: one OpenAI
computer-call or function-call payload to at most one canonical action;
an unrecognized `action_type` leaves `action = None`. -/
def parse_action (action_type : String) (action_args : JVal) :
    Except PyErr (Option V1Action) :=
  if action_type = "click" then
    match qget action_args "x" with
    | .error e => .error e
    | .ok x =>
        match qget action_args "y" with
        | .error e => .error e
        | .ok y =>
            match (if qhas action_args "button" then qget action_args "button"
                   else .ok (.s "left")) with
            | .error e => .error e
            | .ok b => .ok (some ⟨"click", [("x", x), ("y", y), ("button", b)]⟩)
  else if action_type = "double_click" then
    match qget action_args "x" with
    | .error e => .error e
    | .ok x =>
        match qget action_args "y" with
        | .error e => .error e
        | .ok y => .ok (some ⟨"double_click", [("x", x), ("y", y)]⟩)
  else if action_type = "scroll" then
    match qget action_args "scroll_y" with
    | .error e => .error e
    | .ok sv =>
        match asInt sv with
        | .error e => .error e
        | .ok sy => .ok (some ⟨"scroll", [("clicks", .n (sy / 10 * (-1)))]⟩)
  else if action_type = "type" then
    match qget action_args "text" with
    | .error e => .error e
    | .ok t => .ok (some ⟨"type_text", [("text", t)]⟩)
  else if action_type = "move" then
    match qget action_args "x" with
    | .error e => .error e
    | .ok x =>
        match qget action_args "y" with
        | .error e => .error e
        | .ok y => .ok (some ⟨"move_mouse", [("x", x), ("y", y)]⟩)
  else if action_type = "keypress" then
    match qget action_args "keys" with
    | .error e => .error e
    | .ok kv =>
        match kv with
        | .arr ks =>
            match mapKeys ks with
            | .error e => .error e
            | .ok keys => .ok (some ⟨"hot_key", [("keys", .arr keys)]⟩)
        | _ => .error (.err "TypeError: not a list")
  else if action_type = "drag" then
    match qget action_args "path" with
    | .error e => .error e
    | .ok path =>
        match jidx path 0 with
        | .error e => .error e
        | .ok c0 =>
            match path with
            | .arr l =>
                match (if 1 < l.length then jidx path 1 else .ok c0) with
                | .error e => .error e
                | .ok coords =>
                    match qget coords "x" with
                    | .error e => .error e
                    | .ok x =>
                        match qget coords "y" with
                        | .error e => .error e
                        | .ok y => .ok (some ⟨"drag_mouse", [("x", x), ("y", y)]⟩)
            | _ => .error (.err "TypeError: not a list")
  else if action_type = "wait" then
    (if qhas action_args "ms" then
      match qget action_args "ms" with
      | .error e => .error e
      | .ok mv =>
          match asInt mv with
          | .error e => .error e
          | .ok ms => .ok (some ⟨"wait", [("seconds", .n (ms / 1000))]⟩)
     else .ok (some ⟨"wait", [("seconds", .n 1)]⟩))
  else .ok none

end Cua

/-! ## Shared helpers for agent parameter dicts and the tenacity wrapper -/

/-- Membership test on a parameter dict. -/
def hask (ps : List (String × JVal)) (k : String) : Bool :=
  (ps.lookup k).isSome

/-- Read from a parameter dict (`KeyError` when absent). -/
def getp (ps : List (String × JVal)) (k : String) : Except PyErr JVal :=
  match ps.lookup k with
  | some v => .ok v
  | none => .error (.keyError k)

/-- Model of `tenacity.retry(stop=stop_after_attempt(n))`: the attempt
counter `i` indexes the per-attempt behaviour oracle; a failure on the last
allowed attempt raises `RetryError` around that attempt's exception (the
sources do not pass `reraise=True`). -/
def retryGo {σ α β : Type} (run : α → σ → σ × Except PyErr β) (atts : Nat → α) :
    Nat → Nat → σ → σ × Except PyErr β
  | _, 0, st => (st, .error (.err "retry: zero attempts"))
  | i, 1, st =>
      match run (atts i) st with
      | (st', .ok b) => (st', .ok b)
      | (st', .error e) => (st', .error (.retryError e))
  | i, n + 2, st =>
      match run (atts i) st with
      | (st', .ok b) => (st', .ok b)
      | (st', .error _) => retryGo run atts (i + 1) (n + 1) st'

/-- The decorator used on both agents' `take_action`:
`stop_after_attempt(5)`. -/
def tenacityRetry5 {σ α β : Type} (run : α → σ → σ × Except PyErr β)
    (atts : Nat → α) (st : σ) : σ × Except PyErr β :=
  retryGo run atts 0 5 st

/-! ## Claude agent: `claude_computer_use/agent.py` -/

namespace ClaudeCU

/-- The dialect-to-canonical lookup `self.action_mapping` (lines 136-147). -/
def action_mapping : List (String × String) :=
  [("key", "hot_key"),
   ("type", "type_text"),
   ("mouse_move", "move_mouse"),
   ("left_click", "click"),
   ("left_click_drag", "drag_mouse"),
   ("right_click", "click"),
   ("middle_click", "click"),
   ("double_click", "double_click"),
   ("screenshot", "take_screenshots"),
   ("cursor_position", "mouse_coordinates")]

/-- Coordinate stage of `_get_mapped_action_params`: unpack
`coordinate` into `x`/`y` for move/drag. -/
def gmapCoord (action_name : String) (ps : List (String × JVal)) :
    Except PyErr (List (String × JVal)) :=
  if (action_name = "move_mouse" ∨ action_name = "drag_mouse") ∧
      hask ps "coordinate" = true then
    match getp ps "coordinate" with
    | .error e => .error e
    | .ok c =>
        match jidx c 0 with
        | .error e => .error e
        | .ok x =>
            match jidx c 1 with
            | .error e => .error e
            | .ok y => .ok (delk (setk (setk ps "x" x) "y" y) "coordinate")
  else .ok ps

/-- Hot-key stage of `_get_mapped_action_params`: split the `text` on `+`,
strip and lower-case each key, then delete underscores.  No alias table is
consulted. -/
def gmapHotKey (action_name : String) (ps : List (String × JVal)) :
    Except PyErr (List (String × JVal)) :=
  if action_name = "hot_key" ∧ hask ps "text" = true then
    match getp ps "text" with
    | .error e => .error e
    | .ok tv =>
        match asStr tv with
        | .error e => .error e
        | .ok t =>
            let keys := (pySplit '+' t).map (fun k => pyLower (pyStrip k))
            let keys := keys.map (fun k => pyRemoveUnderscores k)
            .ok (delk (setk ps "keys" (.arr (keys.map JVal.s))) "text")
  else .ok ps

/-- The `press_key` stage (unreachable via `action_mapping`, kept for
fidelity): delete underscores and lower-case the `key`. -/
def gmapPressKey (action_name : String) (ps : List (String × JVal)) :
    Except PyErr (List (String × JVal)) :=
  if action_name = "press_key" then
    match getp ps "key" with
    | .error e => .error e
    | .ok kv =>
        match asStr kv with
        | .error e => .error e
        | .ok k => .ok (setk ps "key" (.s (pyLower (pyRemoveUnderscores k))))
  else .ok ps

/-- Port of `_get_mapped_action_params` (lines 425-444): the three sequential
remapping stages, applied unless the action is `screenshot`. -/
def get_mapped_action_params (action_name : String)
    (action_params : List (String × JVal)) : Except PyErr (List (String × JVal)) :=
  if action_name = "screenshot" then .ok action_params
  else
    match gmapCoord action_name action_params with
    | .error e => .error e
    | .ok ps1 =>
        match gmapHotKey action_name ps1 with
        | .error e => .error e
        | .ok ps2 => gmapPressKey action_name ps2

/-- One block of the parsed model response: a `text` block or a `tool_use`
block (its `input` dict is carried without the already-extracted `action`
discriminator, which the source deletes before dispatch). -/
inductive CBlock where
  | text (s : String)
  | toolUse (id : String) (actionKey : String) (input : List (String × JVal))

/-- Observable agent/task state threaded through `take_action`:
task status and error, messages posted to the task, actions recorded via
`record_action`, the Anthropic message history (mutated in place, so shared
across retry attempts), and traces of model calls, `device.use` calls and
screenshots. -/
structure ClaudeSt where
  status : TaskStatus
  error : Option String
  posted : List String
  recorded : List V1Action
  messages : List BetaMessage
  modelCalls : Nat
  useCalls : List String
  screenshots : Nat

/-- The `for content_block in response_params` loop (lines 270-359), with the
device's capability list `dev` and a per-action `device.use` failure oracle
`useF`; accumulates the `tool_result_content` count.  An unknown dialect
action key raises `KeyError` at the `action_mapping` lookup. -/
def take_action_blocks (dev : List String) (useF : String → Option PyErr) :
    List CBlock → ClaudeSt → Nat → ClaudeSt × Except PyErr Nat
  | [], st, trc => (st, .ok trc)
  | .text s :: rest, st, trc =>
      take_action_blocks dev useF rest
        { st with posted := st.posted ++ ["thought: " ++ s] } trc
  | .toolUse _ key input :: rest, st, trc =>
      match action_mapping.lookup key with
      | none => (st, .error (.keyError key))
      | some name =>
          let ps := if key = "right_click" then setk input "button" (.s "right")
                    else if key = "middle_click" then setk input "button" (.s "middle")
                    else input
          let st1 := { st with posted := st.posted ++ ["taking action " ++ name] }
          if name ∈ dev then
            if name = "take_screenshots" then
              take_action_blocks dev useF rest
                { st1 with screenshots := st1.screenshots + 1,
                           posted := st1.posted ++ ["Current Image"],
                           recorded := st1.recorded ++ [⟨name, ps⟩] } (trc + 1)
            else
              match get_mapped_action_params name ps with
              | .error e => (st1, .error e)
              | .ok ps2 =>
                  let st2 := { st1 with useCalls := st1.useCalls ++ [name] }
                  match useF name with
                  | some e =>
                      (st2, .error (.valueError ("Trouble using action: " ++ errStr e)))
                  | none =>
                      take_action_blocks dev useF rest
                        { st2 with screenshots := st2.screenshots + 1,
                                   posted := st2.posted ++ ["Current Image"],
                                   recorded := st2.recorded ++ [⟨name, ps2⟩] } (trc + 1)
          else (st1, .error (.systemError "action not found"))

/-- Port of one `take_action` call (lines 179-372).  The model round trip is
the `modelResult` oracle: either the call/parse raises, or it returns
`(stop_reason == end_turn, blocks)`.  Any exception inside the body reaches
the closing `except`, which posts a retrying message and re-raises. -/
def take_action (dev : List String) (useF : String → Option PyErr)
    (modelResult : Except PyErr (Bool × List CBlock)) (st : ClaudeSt) :
    ClaudeSt × Except PyErr Bool :=
  let run : ClaudeSt × Except PyErr Bool :=
    if st.status = .canceling then
      ({ st with status := .canceled }, .ok true)
    else if st.status = .canceled then (st, .ok true)
    else
      let st0 := { st with
        messages := maybe_filter_to_n_most_recent_images st.messages 3 2 }
      let st1 := { st0 with modelCalls := st0.modelCalls + 1 }
      match modelResult with
      | .error e => (st1, .error e)
      | .ok (endTurn, blocks) =>
          let st2 := { st1 with messages :=
            st1.messages ++ [⟨.blocks (blocks.map (fun _ => .otherItem))⟩] }
          if endTurn then
            match blocks with
            | .text s :: _ =>
                ({ st2 with posted := st2.posted ++ ["task done: " ++ s],
                            status := .finished,
                            screenshots := st2.screenshots + 1,
                            recorded := st2.recorded ++
                              [⟨"result", [("value", .s s)]⟩] }, .ok true)
            | _ => (st2, .error (.err "TypeError: response_params[0] has no text"))
          else
            match take_action_blocks dev useF blocks st2 0 with
            | (st3, .error e) => (st3, .error e)
            | (st3, .ok 0) => (st3, .ok true)
            | (st3, .ok (trc + 1)) =>
                ({ st3 with messages := st3.messages ++
                    [⟨.blocks (List.replicate (trc + 1)
                      (.toolResult (some [.image])))⟩] }, .ok false)
  match run with
  | (st', .ok b) => (st', .ok b)
  | (st', .error e) =>
      ({ st' with posted := st'.posted ++
          ["Error taking action: " ++ errStr e ++ " -- retrying..."] }, .error e)

/-- One iteration of the `solve_task` loop around the retried `take_action`
(lines 149-166): a propagated exception marks the task FAILED, stores
`str(e)` and posts it; `some done` is the normal outcome. -/
def solve_task_step (dev : List String) (useF : String → Option PyErr)
    (atts : Nat → Except PyErr (Bool × List CBlock)) (st : ClaudeSt) :
    ClaudeSt × Option Bool :=
  match tenacityRetry5 (take_action dev useF) atts st with
  | (st', .ok done) => (st', some done)
  | (st', .error e) =>
      ({ st' with status := .failed, error := some (errStr e),
                  posted := st'.posted ++ ["Error taking action: " ++ errStr e] },
       none)

end ClaudeCU

/-! ## CUA agent: `cua/agent.py` -/

namespace CuaAgent

/-- Outcome of the `actor.act` model round trip of one attempt. -/
inductive ActOutcome where
  | raises (e : PyErr)
  | noStep
  | step (a : V1Action)

/-- Environment behaviour of one `take_action` attempt: the actor outcome
plus failure oracles for `device.use` and `task.record_action`. -/
structure CuaAttempt where
  act : ActOutcome
  useFails : Option PyErr
  recordFails : Option PyErr

/-- Observable agent/task state threaded through the cua `take_action`. -/
structure CuaSt where
  status : TaskStatus
  error : Option String
  posted : List String
  recorded : List V1Action
  actCalls : Nat
  useCalls : List String

/-- The closing `except` of `take_action`: post the retrying message and
re-raise. -/
def fail_posting (st : CuaSt) (e : PyErr) :
    CuaSt × Except PyErr (Option V1Action × Bool) :=
  ({ st with posted := st.posted ++
      ["Error taking action: " ++ errStr e ++ " -- retrying..."] }, .error e)

/-- Port of one cua `take_action` call (lines 137-257): cancellation check,
actor call, terminal-result branch, capability resolution, dispatch
(`device.use`, traced in `useCalls` whether or not it raises), and
`record_action`. -/
def take_action (dev : List String) (att : CuaAttempt) (st : CuaSt) :
    CuaSt × Except PyErr (Option V1Action × Bool) :=
  if st.status = .canceling then
    ({ st with status := .canceled }, .ok (none, true))
  else if st.status = .canceled then (st, .ok (none, true))
  else
    let st0 := { st with actCalls := st.actCalls + 1 }
    match att.act with
    | .raises e => fail_posting st0 e
    | .noStep => (st0, .ok (none, false))
    | .step a =>
        if a.name = "result" then
          let st1 := { st0 with posted := st0.posted ++ ["task done"],
                                status := .finished }
          match att.recordFails with
          | some e => fail_posting st1 e
          | none => ({ st1 with recorded := st1.recorded ++ [a] }, .ok (some a, true))
        else if a.name ∈ dev then
          let st1 := { st0 with useCalls := st0.useCalls ++ [a.name] }
          match att.useFails with
          | some e =>
              fail_posting st1 (.valueError ("Trouble using action: " ++ errStr e))
          | none =>
              match att.recordFails with
              | some e => fail_posting st1 e
              | none =>
                  ({ st1 with recorded := st1.recorded ++ [a] }, .ok (some a, false))
        else fail_posting st0 (.systemError "action not found")

/-- One iteration of the cua `solve_task` loop around the retried
`take_action` (lines 102-113): a propagated exception marks the task FAILED
with `str(e)` stored on the task. -/
def solve_task_step (dev : List String) (atts : Nat → CuaAttempt) (st : CuaSt) :
    CuaSt × Option (Option V1Action × Bool) :=
  match tenacityRetry5 (take_action dev) atts st with
  | (st', .ok r) => (st', some r)
  | (st', .error e) =>
      ({ st' with status := .failed, error := some (errStr e),
                  posted := st'.posted ++ ["Error taking action: " ++ errStr e] },
       none)

end CuaAgent

/-! ## Claim theorems -/

/-- Prefix monotonicity: a longer pattern occurs nowhere if a prefix of it
occurs nowhere. -/
theorem strFind_extend_none (p q s : List Char)
    (h : Qwen.strFind p s = none) : Qwen.strFind (p ++ q) s = none := by
  induction s with
  | nil =>
    rw [Qwen.strFind] at h ⊢
    by_cases hp : p.isPrefixOf ([] : List Char)
    · rw [if_pos hp] at h; exact absurd h (by simp)
    · have hp' : p ≠ [] := by
        intro hnil; exact hp (by simp [hnil, List.isPrefixOf])
      have : ¬ (p ++ q).isPrefixOf ([] : List Char) := by
        intro hc
        rw [List.isPrefixOf_iff_prefix] at hc
        have h0 := List.prefix_nil.mp hc
        exact hp' (List.append_eq_nil.mp h0).1
      rw [if_neg this]
  | cons c rest ih =>
    rw [Qwen.strFind] at h ⊢
    by_cases hp : p.isPrefixOf (c :: rest)
    · rw [if_pos hp] at h; exact absurd h (by simp)
    · rw [if_neg hp] at h
      have hrest : Qwen.strFind p rest = none := by
        cases hr : Qwen.strFind p rest with
        | none => rfl
        | some v => rw [hr] at h; simp at h
      have hnp : ¬ (p ++ q).isPrefixOf (c :: rest) := by
        intro hc
        rw [List.isPrefixOf_iff_prefix] at hc
        exact hp (List.isPrefixOf_iff_prefix.mpr
          ((List.prefix_append p q).trans hc))
      rw [if_neg hnp, ih hrest]
      rfl

/-- When the content holds no `<tool_call>` tag, the tool-call extraction is
empty (every match of the full pattern would have to contain the tag). -/
theorem extractToolCalls_of_no_tag (s : List Char)
    (h : Qwen.strFind ("<tool_call>".toList) s = none) :
    Qwen.extractToolCalls s = [] := by
  have hopen : Qwen.strFind Qwen.openTag s = none := by
    have he : Qwen.openTag = "<tool_call>".toList ++ ['\n' ] := rfl
    rw [he]
    exact strFind_extend_none _ _ _ h
  rw [Qwen.extractToolCalls]
  cases hs : s.length with
  | zero => rw [Qwen.extractAux]
  | succ m => rw [Qwen.extractAux, hopen]

/-- C10: the qwen dialect `parse_action` is not total — on any content that
contains no `<tool_call>` tag (so the lookahead search never matches and the
`thought` local is never assigned) it raises `UnboundLocalError` at
`return thought, output` instead of returning a `(thought, actions)` pair. -/
theorem C10_qwen_thought_unbound (loads : String → JVal) (content : String)
    (h : Qwen.strFind ("<tool_call>".toList) content.toList = none) :
    Qwen.parse_action loads content = .error Qwen.unboundLocalThought := by
  have hext := extractToolCalls_of_no_tag content.toList h
  have h' : Qwen.strFind ['<', 't', 'o', 'o', 'l', '_', 'c', 'a', 'l', 'l', '>']
      content.data = none := h
  have hext' : Qwen.extractToolCalls content.data = [] := hext
  simp [Qwen.parse_action, Qwen.preToolThought, h', hext', Qwen.parseTools]

/-- Witness for C10: the content `"hello"` holds no tag and parsing it
raises. -/
theorem C10_qwen_thought_unbound_witness :
    Qwen.parse_action (fun _ => JVal.obj []) "hello" =
      .error Qwen.unboundLocalThought :=
  C10_qwen_thought_unbound (fun _ => JVal.obj []) "hello" (by decide)

/-- The dialect action names the qwen `elif` chain recognizes. -/
def qwenRecognizedActions : List String :=
  ["key", "type", "mouse_move", "left_click", "left_click_drag",
   "right_click", "middle_click", "double_click", "scroll", "wait",
   "terminate"]

/-- Initial claude agent state: task in progress, nothing posted, recorded
or sent. -/
def claudeInit : ClaudeCU.ClaudeSt :=
  ⟨.inProgress, none, [], [], [], 0, [], 0⟩

/-- Initial cua agent state. -/
def cuaInit : CuaAgent.CuaSt :=
  ⟨.inProgress, none, [], [], 0, []⟩

/-- C2 counterexample: feeding the qwen parser a full content string whose
single tool call carries the unrecognized action name `teleport` does not
raise any error — `parse_action` returns normally, passing the unrecognized
name through as the action name with empty parameters.  (The decoded payload
is supplied through the `loads` oracle.) -/
theorem C2_counterexample :
    Qwen.parse_action
      (fun _ => JVal.obj [("arguments", JVal.obj [("action", JVal.s "teleport")])])
      "Thought: go\n<tool_call>\nteleport-call\n</tool_call>" =
      .ok ("Thought: go", [⟨"teleport", []⟩]) := rfl

/-- C2 amended: an unrecognized dialect action name is not a parse-time
fatal error.  The qwen parser passes any unrecognized name through unchanged
with empty parameters; in the claude agent the unknown name raises a
`KeyError` at the `action_mapping` lookup, but that error IS retried (the
attempt is re-run five times, posting a retrying message each time) before
the exhausted retry marks the task FAILED with the `RetryError` text. -/
theorem C2_amended_unknown_action :
    (∀ (t : Option String) (name : String) (args : JVal),
       name ∉ qwenRecognizedActions →
       Qwen.mapAction t name args = .ok ⟨name, []⟩) ∧
    ClaudeCU.action_mapping.lookup "teleport" = none ∧
    ((ClaudeCU.solve_task_step ["click"] (fun _ => none)
        (fun _ => .ok (false, [.toolUse "id1" "teleport" []])) claudeInit).1.status
        = .failed ∧
     (ClaudeCU.solve_task_step ["click"] (fun _ => none)
        (fun _ => .ok (false, [.toolUse "id1" "teleport" []])) claudeInit).1.error
        = some (errStr (.retryError (.keyError "teleport"))) ∧
     (ClaudeCU.solve_task_step ["click"] (fun _ => none)
        (fun _ => .ok (false, [.toolUse "id1" "teleport" []])) claudeInit).2
        = none ∧
     ((ClaudeCU.solve_task_step ["click"] (fun _ => none)
        (fun _ => .ok (false, [.toolUse "id1" "teleport" []])) claudeInit).1.posted.filter
        (fun s => s = "Error taking action: teleport -- retrying...")).length = 5) := by
  refine ⟨?_, rfl, rfl, rfl, rfl, ?_⟩
  · intro t name args hname
    simp only [qwenRecognizedActions, List.mem_cons, List.not_mem_nil, or_false,
      not_or] at hname
    obtain ⟨h1, h2, h3, h4, h5, h6, h7, h8, h9, h10, h11⟩ := hname
    simp [Qwen.mapAction, h1, h2, h3, h4, h5, h6, h7, h8, h9, h10, h11]
  · rfl

/-- Witness for C2's amended theorem: the name `teleport` itself passes
through the qwen chain. -/
theorem C2_amended_unknown_action_witness :
    Qwen.mapAction (some "T") "teleport" (JVal.obj []) = .ok ⟨"teleport", []⟩ :=
  C2_amended_unknown_action.1 (some "T") "teleport" (JVal.obj []) (by decide)

/-- C4 counterexample: the qwen dialect's scroll payload is a pixel delta,
yet its parser integer-divides by 10 WITHOUT flipping the sign: pixels
`-30` yields `clicks == -3`, not the claimed `3`. -/
theorem C4_counterexample :
    Qwen.mapAction (some "T") "scroll" (JVal.obj [("pixels", JVal.n (-30))]) =
      .ok ⟨"scroll", [("clicks", JVal.n (-3))]⟩ ∧ (-3 : Int) ≠ 3 :=
  ⟨rfl, by decide⟩

/-- C4 amended: the cua dialect (whose `scroll_y` pixel delta is positive
when scrolling down) converts by integer-dividing by 10 and flipping sign,
so `-30 ↦ 3` and `23 ↦ -2`; the qwen dialect (whose `pixels` value is
positive when scrolling up, per its own schema) integer-divides by 10
without flipping sign (`-30 ↦ -3`).  Both preserve the canonical
positive-clicks-means-up convention under their own input conventions. -/
theorem C4_amended_scroll (sy p : Int) (hsy : sy ≤ 0) (hp : 0 ≤ p) :
    Cua.parse_action "scroll" (.obj [("scroll_y", .n sy)]) =
      .ok (some ⟨"scroll", [("clicks", .n (sy / 10 * (-1)))]⟩) ∧
    0 ≤ sy / 10 * (-1) ∧
    Qwen.mapAction none "scroll" (.obj [("pixels", .n p)]) =
      .ok ⟨"scroll", [("clicks", .n (p / 10))]⟩ ∧
    0 ≤ p / 10 ∧
    Cua.parse_action "scroll" (.obj [("scroll_y", .n (-30))]) =
      .ok (some ⟨"scroll", [("clicks", .n 3)]⟩) ∧
    Cua.parse_action "scroll" (.obj [("scroll_y", .n 23)]) =
      .ok (some ⟨"scroll", [("clicks", .n (-2))]⟩) ∧
    Qwen.mapAction none "scroll" (.obj [("pixels", .n (-30))]) =
      .ok ⟨"scroll", [("clicks", .n (-3))]⟩ := by
  refine ⟨rfl, ?_, rfl, ?_, rfl, rfl, rfl⟩
  · omega
  · omega

/-- Witness for C4's amended theorem at `scroll_y = -30`, `pixels = 23`. -/
theorem C4_amended_scroll_witness :
    Cua.parse_action "scroll" (.obj [("scroll_y", .n (-30))]) =
      .ok (some ⟨"scroll", [("clicks", .n ((-30 : Int) / 10 * (-1)))]⟩) ∧
    0 ≤ (23 : Int) / 10 :=
  ⟨(C4_amended_scroll (-30) 23 (by decide) (by decide)).1,
   (C4_amended_scroll (-30) 23 (by decide) (by decide)).2.2.2.1⟩

/-- C8 counterexample: `"Cmd+Shift_Key"` through the claude hot-key
canonicalization yields `["cmd", "shiftkey"]` — lower-cased and
underscore-stripped but NOT alias-resolved (`cmd` stays `cmd` even though
the alias table maps it to `command`); and the dialect that does own the
alias table (cua `keypress`) resolves `Cmd ↦ command` but does NOT strip
underscores (`Shift_Key ↦ shift_key`). -/
theorem C8_counterexample :
    ClaudeCU.get_mapped_action_params "hot_key" [("text", .s "Cmd+Shift_Key")] =
      .ok [("keys", .arr [.s "cmd", .s "shiftkey"])] ∧
    Cua.CUA_KEY_TO_AGENTDESK_KEY.lookup "cmd" = some "command" ∧
    ("cmd" : String) ≠ "command" ∧
    Cua.parse_action "keypress" (.obj [("keys", .arr [.s "Cmd", .s "Shift_Key"])]) =
      .ok (some ⟨"hot_key", [("keys", .arr [.s "command", .s "shift_key"])]⟩) ∧
    ("shift_key" : String) ≠ "shiftkey" :=
  ⟨rfl, rfl, by decide, rfl, by decide⟩

/-- C8 amended: claude's `hot_key` canonicalization of `"ctrl+c"` yields
`["ctrl", "c"]`, and of `"Cmd+Shift_Key"` yields `["cmd", "shiftkey"]`
(split on `+`, stripped, lower-cased, underscores deleted — no alias
resolution).  The fixed alias table (`esc ↦ escape`, `cmd/super ↦ command`,
`option ↦ alt`) belongs to the cua `keypress` mapping, which lower-cases and
alias-resolves but keeps underscores; a key absent from the table passes
through lower-cased there. -/
theorem C8_amended_hot_keys :
    ClaudeCU.get_mapped_action_params "hot_key" [("text", .s "ctrl+c")] =
      .ok [("keys", .arr [.s "ctrl", .s "c"])] ∧
    ClaudeCU.get_mapped_action_params "hot_key" [("text", .s "Cmd+Shift_Key")] =
      .ok [("keys", .arr [.s "cmd", .s "shiftkey"])] ∧
    Cua.parse_action "keypress" (.obj [("keys", .arr [.s "Cmd", .s "Shift_Key"])]) =
      .ok (some ⟨"hot_key", [("keys", .arr [.s "command", .s "shift_key"])]⟩) ∧
    Cua.CUA_KEY_TO_AGENTDESK_KEY.lookup "esc" = some "escape" ∧
    Cua.CUA_KEY_TO_AGENTDESK_KEY.lookup "cmd" = some "command" ∧
    Cua.CUA_KEY_TO_AGENTDESK_KEY.lookup "super" = some "command" ∧
    Cua.CUA_KEY_TO_AGENTDESK_KEY.lookup "option" = some "alt" ∧
    (∀ k : String, Cua.CUA_KEY_TO_AGENTDESK_KEY.lookup (pyLower k) = none →
      Cua.parse_action "keypress" (.obj [("keys", .arr [.s k])]) =
        .ok (some ⟨"hot_key", [("keys", .arr [.s (pyLower k)])]⟩)) := by
  refine ⟨rfl, rfl, rfl, rfl, rfl, rfl, rfl, ?_⟩
  intro k h
  have hmap : Cua.mapKeys [JVal.s k] = .ok [JVal.s (pyLower k)] := by
    simp [Cua.mapKeys, h]
  simp [Cua.parse_action, qget, hmap]

/-- Witness for C8's amended theorem: `F19` is not in the alias table and
passes through lower-cased. -/
theorem C8_amended_hot_keys_witness :
    Cua.parse_action "keypress" (.obj [("keys", .arr [.s "F19"])]) =
      .ok (some ⟨"hot_key", [("keys", .arr [.s (pyLower "F19")])]⟩) :=
  C8_amended_hot_keys.2.2.2.2.2.2.2 "F19" (by decide)

/-- C9 counterexample: the recognized qwen payload `left_click` without a
`coordinate` argument parses to a canonical `click` whose parameters hold no
`x` (and no `y`) even though the claim lists `x`, `y`, `button` as required
for `click`; and the claude dialect table maps the recognized name
`cursor_position` to `mouse_coordinates`, which is outside the claimed fixed
vocabulary. -/
theorem C9_counterexample :
    Qwen.mapAction (some "T") "left_click"
      (JVal.obj [("action", JVal.s "left_click")]) =
      .ok ⟨"click", [("button", .s "left")]⟩ ∧
    ([("button", JVal.s "left")] : List (String × JVal)).lookup "x" = none ∧
    ClaudeCU.action_mapping.lookup "cursor_position" = some "mouse_coordinates" ∧
    ("mouse_coordinates" : String) ∉ canonicalNames :=
  ⟨rfl, rfl, rfl, by decide⟩

/-- Success shape of `Qwen.withXY`: the returned parameters are the base
followed by the unpacked `x` and `y`. -/
theorem withXY_ok (args : JVal) (base ps : List (String × JVal))
    (h : Qwen.withXY args base = .ok ps) :
    ∃ x y, ps = base ++ [("x", x), ("y", y)] := by
  unfold Qwen.withXY at h
  split at h
  · exact Except.noConfusion h
  · split at h
    · exact Except.noConfusion h
    · split at h
      · exact Except.noConfusion h
      · injection h with h
        exact ⟨_, _, h.symm⟩

/-- Success shape of the optional-coordinate pattern of the qwen click and
drag branches. -/
theorem clickParams_ok (args : JVal) (base ps : List (String × JVal))
    (heq : (if qhas args "coordinate" = true then Qwen.withXY args base
            else Except.ok base) = .ok ps) :
    ps = base ∨ ∃ x y, ps = base ++ [("x", x), ("y", y)] := by
  split at heq
  · exact .inr (withXY_ok args base ps heq)
  · refine .inl ?_
    injection heq with heq
    exact heq.symm

/-- C9 amended: every recognized qwen dialect payload that parses without an
exception yields exactly one canonical action whose name is in the fixed
vocabulary; the click family always carries `button`, and `mouse_move`
always carries `x` and `y` — but click/drag coordinates are present only
when the payload supplies them, and the claude mapping additionally sends
`cursor_position` to `mouse_coordinates`, outside the listed set (see the
counterexample). -/
theorem C9_amended_vocabulary (t : Option String) (name : String) (args : JVal)
    (a : V1Action) (hrec : name ∈ qwenRecognizedActions)
    (h : Qwen.mapAction t name args = .ok a) :
    a.name ∈ canonicalNames ∧
    ((a.name = "click" ∨ a.name = "double_click") →
      hask a.parameters "button" = true) ∧
    (name = "mouse_move" →
      hask a.parameters "x" = true ∧ hask a.parameters "y" = true) := by
  simp only [qwenRecognizedActions, List.mem_cons, List.not_mem_nil,
    or_false] at hrec
  rcases hrec with rfl | rfl | rfl | rfl | rfl | rfl | rfl | rfl | rfl | rfl | rfl
  · rw [Qwen.mapAction] at h
    rw [if_pos rfl] at h
    split at h
    · exact Except.noConfusion h
    · injection h with h
      subst h
      exact ⟨(by decide : ("hot_key" : String) ∈ canonicalNames), (fun hb => absurd (show ("hot_key" : String) = "click" ∨ ("hot_key" : String) = "double_click" from hb) (by decide)), (fun hm => absurd (show ("key" : String) = "mouse_move" from hm) (by decide))⟩
  · rw [Qwen.mapAction] at h
    rw [if_neg (by decide)] at h
    rw [if_pos rfl] at h
    split at h
    · exact Except.noConfusion h
    · injection h with h
      subst h
      exact ⟨(by decide : ("type_text" : String) ∈ canonicalNames), (fun hb => absurd (show ("type_text" : String) = "click" ∨ ("type_text" : String) = "double_click" from hb) (by decide)), (fun hm => absurd (show ("type" : String) = "mouse_move" from hm) (by decide))⟩
  · rw [Qwen.mapAction] at h
    rw [if_neg (by decide)] at h
    rw [if_neg (by decide)] at h
    rw [if_pos rfl] at h
    split at h
    · exact Except.noConfusion h
    · rename_i ps heq
      obtain ⟨x, y, rfl⟩ := withXY_ok args [] ps heq
      injection h with h
      subst h
      exact ⟨(by decide : ("move_mouse" : String) ∈ canonicalNames), (fun hb => absurd (show ("move_mouse" : String) = "click" ∨ ("move_mouse" : String) = "double_click" from hb) (by decide)), (fun _ => ⟨rfl, rfl⟩)⟩
  · rw [Qwen.mapAction] at h
    rw [if_neg (by decide)] at h
    rw [if_neg (by decide)] at h
    rw [if_neg (by decide)] at h
    rw [if_pos rfl] at h
    split at h
    · exact Except.noConfusion h
    · rename_i ps heq
      injection h with h
      subst h
      rcases clickParams_ok args [("button", JVal.s "left")] ps heq with rfl | ⟨x, y, rfl⟩
      · exact ⟨(by decide : ("click" : String) ∈ canonicalNames), (fun _ => rfl), (fun hm => absurd (show ("left_click" : String) = "mouse_move" from hm) (by decide))⟩
      · exact ⟨(by decide : ("click" : String) ∈ canonicalNames), (fun _ => rfl), (fun hm => absurd (show ("left_click" : String) = "mouse_move" from hm) (by decide))⟩
  · rw [Qwen.mapAction] at h
    rw [if_neg (by decide)] at h
    rw [if_neg (by decide)] at h
    rw [if_neg (by decide)] at h
    rw [if_neg (by decide)] at h
    rw [if_pos rfl] at h
    split at h
    · exact Except.noConfusion h
    · rename_i ps heq
      injection h with h
      subst h
      rcases clickParams_ok args [] ps heq with rfl | ⟨x, y, rfl⟩
      · exact ⟨(by decide : ("drag_mouse" : String) ∈ canonicalNames), (fun hb => absurd (show ("drag_mouse" : String) = "click" ∨ ("drag_mouse" : String) = "double_click" from hb) (by decide)), (fun hm => absurd (show ("left_click_drag" : String) = "mouse_move" from hm) (by decide))⟩
      · exact ⟨(by decide : ("drag_mouse" : String) ∈ canonicalNames), (fun hb => absurd (show ("drag_mouse" : String) = "click" ∨ ("drag_mouse" : String) = "double_click" from hb) (by decide)), (fun hm => absurd (show ("left_click_drag" : String) = "mouse_move" from hm) (by decide))⟩
  · rw [Qwen.mapAction] at h
    rw [if_neg (by decide)] at h
    rw [if_neg (by decide)] at h
    rw [if_neg (by decide)] at h
    rw [if_neg (by decide)] at h
    rw [if_neg (by decide)] at h
    rw [if_pos rfl] at h
    split at h
    · exact Except.noConfusion h
    · rename_i ps heq
      injection h with h
      subst h
      rcases clickParams_ok args [("button", JVal.s "right")] ps heq with rfl | ⟨x, y, rfl⟩
      · exact ⟨(by decide : ("click" : String) ∈ canonicalNames), (fun _ => rfl), (fun hm => absurd (show ("right_click" : String) = "mouse_move" from hm) (by decide))⟩
      · exact ⟨(by decide : ("click" : String) ∈ canonicalNames), (fun _ => rfl), (fun hm => absurd (show ("right_click" : String) = "mouse_move" from hm) (by decide))⟩
  · rw [Qwen.mapAction] at h
    rw [if_neg (by decide)] at h
    rw [if_neg (by decide)] at h
    rw [if_neg (by decide)] at h
    rw [if_neg (by decide)] at h
    rw [if_neg (by decide)] at h
    rw [if_neg (by decide)] at h
    rw [if_pos rfl] at h
    split at h
    · exact Except.noConfusion h
    · rename_i ps heq
      injection h with h
      subst h
      rcases clickParams_ok args [("button", JVal.s "middle")] ps heq with rfl | ⟨x, y, rfl⟩
      · exact ⟨(by decide : ("click" : String) ∈ canonicalNames), (fun _ => rfl), (fun hm => absurd (show ("middle_click" : String) = "mouse_move" from hm) (by decide))⟩
      · exact ⟨(by decide : ("click" : String) ∈ canonicalNames), (fun _ => rfl), (fun hm => absurd (show ("middle_click" : String) = "mouse_move" from hm) (by decide))⟩
  · rw [Qwen.mapAction] at h
    rw [if_neg (by decide)] at h
    rw [if_neg (by decide)] at h
    rw [if_neg (by decide)] at h
    rw [if_neg (by decide)] at h
    rw [if_neg (by decide)] at h
    rw [if_neg (by decide)] at h
    rw [if_neg (by decide)] at h
    rw [if_pos rfl] at h
    split at h
    · exact Except.noConfusion h
    · rename_i ps heq
      injection h with h
      subst h
      rcases clickParams_ok args [("button", JVal.s "left")] ps heq with rfl | ⟨x, y, rfl⟩
      · exact ⟨(by decide : ("double_click" : String) ∈ canonicalNames), (fun _ => rfl), (fun hm => absurd (show ("double_click" : String) = "mouse_move" from hm) (by decide))⟩
      · exact ⟨(by decide : ("double_click" : String) ∈ canonicalNames), (fun _ => rfl), (fun hm => absurd (show ("double_click" : String) = "mouse_move" from hm) (by decide))⟩
  · rw [Qwen.mapAction] at h
    rw [if_neg (by decide)] at h
    rw [if_neg (by decide)] at h
    rw [if_neg (by decide)] at h
    rw [if_neg (by decide)] at h
    rw [if_neg (by decide)] at h
    rw [if_neg (by decide)] at h
    rw [if_neg (by decide)] at h
    rw [if_neg (by decide)] at h
    rw [if_pos rfl] at h
    split at h
    · exact Except.noConfusion h
    · split at h
      · exact Except.noConfusion h
      · injection h with h
        subst h
        exact ⟨(by decide : ("scroll" : String) ∈ canonicalNames), (fun hb => absurd (show ("scroll" : String) = "click" ∨ ("scroll" : String) = "double_click" from hb) (by decide)), (fun hm => absurd (show ("scroll" : String) = "mouse_move" from hm) (by decide))⟩
  · rw [Qwen.mapAction] at h
    rw [if_neg (by decide)] at h
    rw [if_neg (by decide)] at h
    rw [if_neg (by decide)] at h
    rw [if_neg (by decide)] at h
    rw [if_neg (by decide)] at h
    rw [if_neg (by decide)] at h
    rw [if_neg (by decide)] at h
    rw [if_neg (by decide)] at h
    rw [if_neg (by decide)] at h
    rw [if_pos rfl] at h
    split at h
    · exact Except.noConfusion h
    · injection h with h
      subst h
      exact ⟨(by decide : ("wait" : String) ∈ canonicalNames), (fun hb => absurd (show ("wait" : String) = "click" ∨ ("wait" : String) = "double_click" from hb) (by decide)), (fun hm => absurd (show ("wait" : String) = "mouse_move" from hm) (by decide))⟩
  · rw [Qwen.mapAction] at h
    rw [if_neg (by decide)] at h
    rw [if_neg (by decide)] at h
    rw [if_neg (by decide)] at h
    rw [if_neg (by decide)] at h
    rw [if_neg (by decide)] at h
    rw [if_neg (by decide)] at h
    rw [if_neg (by decide)] at h
    rw [if_neg (by decide)] at h
    rw [if_neg (by decide)] at h
    rw [if_neg (by decide)] at h
    rw [if_pos rfl] at h
    split at h
    · exact Except.noConfusion h
    · split at h
      · exact Except.noConfusion h
      · split at h
        · exact Except.noConfusion h
        · injection h with h
          subst h
          exact ⟨(by decide : ("result" : String) ∈ canonicalNames), (fun hb => absurd (show ("result" : String) = "click" ∨ ("result" : String) = "double_click" from hb) (by decide)), (fun hm => absurd (show ("terminate" : String) = "mouse_move" from hm) (by decide))⟩

/-- Witness for C9's amended theorem at a concrete `wait` payload. -/
theorem C9_amended_vocabulary_witness :
    (V1Action.mk "wait" [("seconds", JVal.n 5)]).name ∈ canonicalNames :=
  (C9_amended_vocabulary (some "T") "wait" (JVal.obj [("time", JVal.n 5)])
    ⟨"wait", [("seconds", JVal.n 5)]⟩ (by decide) rfl).1

/-- C7 counterexample: in the claude agent a model response with no
`tool_use` block (here one text block, `stop_reason` not `end_turn`) makes
`take_action` return `done = True` — `solve_task` then returns, ending the
task run — rather than continuing to the next step; nothing is recorded. -/
theorem C7_counterexample :
    (ClaudeCU.take_action ["click"] (fun _ => none)
        (.ok (false, [.text "hi"])) claudeInit).2 = .ok true ∧
    (ClaudeCU.take_action ["click"] (fun _ => none)
        (.ok (false, [.text "hi"])) claudeInit).1.recorded = [] ∧
    (ClaudeCU.take_action ["click"] (fun _ => none)
        (.ok (false, [.text "hi"])) claudeInit).1.status = .inProgress :=
  ⟨rfl, rfl, rfl⟩

/-- C7 amended: the two step loops disagree on a no-action response.  The
cua loop treats it as a no-op continuation — `take_action` returns
`(None, False)`, records nothing and the loop proceeds; the claude loop
instead returns done (`True`), so its `solve_task` returns and the task run
stops there. -/
theorem C7_amended_no_action (dev : List String) (att : CuaAgent.CuaAttempt)
    (st : CuaAgent.CuaSt) (hst : st.status = .inProgress)
    (hact : att.act = .noStep) :
    CuaAgent.take_action dev att st =
      ({ st with actCalls := st.actCalls + 1 }, .ok (none, false)) ∧
    (CuaAgent.take_action dev att st).1.recorded = st.recorded ∧
    (ClaudeCU.take_action ["click"] (fun _ => none)
        (.ok (false, [.text "hi"])) claudeInit).2 = .ok true := by
  have h1 : CuaAgent.take_action dev att st =
      ({ st with actCalls := st.actCalls + 1 }, .ok (none, false)) := by
    rw [CuaAgent.take_action, if_neg (by rw [hst]; exact (by decide)),
      if_neg (by rw [hst]; exact (by decide))]
    rw [hact]
  exact ⟨h1, by rw [h1], rfl⟩

/-- Witness for C7's amended theorem at the initial cua state. -/
theorem C7_amended_no_action_witness :
    CuaAgent.take_action [] ⟨.noStep, none, none⟩ cuaInit =
      ({ cuaInit with actCalls := cuaInit.actCalls + 1 }, .ok (none, false)) :=
  (C7_amended_no_action [] ⟨.noStep, none, none⟩ cuaInit rfl rfl).1

/-- C5: in both step loops, a step entered with task status CANCELING
transitions the task to CANCELED and stops (`done`), leaving every other
field — model-call trace, dispatch trace, records, posts, history —
untouched; a step entered with status CANCELED stops with the state
completely unchanged. -/
theorem C5_cancellation (devC devK : List String) (att : CuaAgent.CuaAttempt)
    (useF : String → Option PyErr)
    (mres : Except PyErr (Bool × List ClaudeCU.CBlock))
    (stc : CuaAgent.CuaSt) (stk : ClaudeCU.ClaudeSt)
    (h1 : stc.status = .canceling) (h2 : stk.status = .canceling) :
    CuaAgent.take_action devC att stc =
      ({ stc with status := .canceled }, .ok (none, true)) ∧
    ClaudeCU.take_action devK useF mres stk =
      ({ stk with status := .canceled }, .ok true) ∧
    (∀ stc2 : CuaAgent.CuaSt, stc2.status = .canceled →
      CuaAgent.take_action devC att stc2 = (stc2, .ok (none, true))) ∧
    (∀ stk2 : ClaudeCU.ClaudeSt, stk2.status = .canceled →
      ClaudeCU.take_action devK useF mres stk2 = (stk2, .ok true)) := by
  refine ⟨?_, ?_, ?_, ?_⟩
  · rw [CuaAgent.take_action, if_pos h1]
  · rw [ClaudeCU.take_action]
    simp only [h2, reduceIte]
  · intro stc2 hc
    rw [CuaAgent.take_action, if_neg (by rw [hc]; decide), if_pos hc]
  · intro stk2 hc
    rw [ClaudeCU.take_action]
    simp only [hc, reduceCtorEq, reduceIte]

/-- Witness for C5 at concrete canceling states of both agents. -/
theorem C5_cancellation_witness :
    CuaAgent.take_action [] ⟨.noStep, none, none⟩
        { cuaInit with status := .canceling } =
      ({ { cuaInit with status := .canceling } with status := .canceled },
       .ok (none, true)) ∧
    ClaudeCU.take_action [] (fun _ => none) (.ok (false, []))
        { claudeInit with status := .canceling } =
      ({ { claudeInit with status := .canceling } with status := .canceled },
       .ok true) :=
  ⟨(C5_cancellation [] [] ⟨.noStep, none, none⟩ (fun _ => none) (.ok (false, []))
      { cuaInit with status := .canceling } { claudeInit with status := .canceling }
      rfl rfl).1,
   (C5_cancellation [] [] ⟨.noStep, none, none⟩ (fun _ => none) (.ok (false, []))
      { cuaInit with status := .canceling } { claudeInit with status := .canceling }
      rfl rfl).2.1⟩

/-- C3 counterexample: a step whose first four attempts fail only AFTER the
device dispatch (the model returns a `click`, the dispatch succeeds, then
`record_action` raises) and whose fifth attempt succeeds does complete
normally with exactly one recorded Step — but the action was dispatched to
the device five times, refuting the claim that no action is dispatched more
than once across the failed and successful attempts. -/
theorem C3_counterexample :
    (tenacityRetry5 (CuaAgent.take_action ["click"])
        (fun i => if i < 4 then ⟨.step ⟨"click", []⟩, none, some (.err "db down")⟩
                  else ⟨.step ⟨"click", []⟩, none, none⟩) cuaInit).2 =
      .ok (some ⟨"click", []⟩, false) ∧
    (tenacityRetry5 (CuaAgent.take_action ["click"])
        (fun i => if i < 4 then ⟨.step ⟨"click", []⟩, none, some (.err "db down")⟩
                  else ⟨.step ⟨"click", []⟩, none, none⟩) cuaInit).1.recorded.length = 1 ∧
    (tenacityRetry5 (CuaAgent.take_action ["click"])
        (fun i => if i < 4 then ⟨.step ⟨"click", []⟩, none, some (.err "db down")⟩
                  else ⟨.step ⟨"click", []⟩, none, none⟩) cuaInit).1.useCalls.length = 5 ∧
    ¬ (5 : Nat) ≤ 1 :=
  ⟨rfl, rfl, rfl, by decide⟩

/-- C3 amended: a step whose first four attempts raise BEFORE any dispatch
(here: inside the actor/model call) and whose fifth attempt succeeds
completes normally, records exactly one Step and dispatches exactly one
device action; when a failing attempt raises after its dispatch, the retry
repeats the dispatch (see the counterexample). -/
theorem C3_amended_retry (dev : List String) (atts : Nat → CuaAgent.CuaAttempt)
    (st : CuaAgent.CuaSt) (a : V1Action) (e0 e1 e2 e3 : PyErr)
    (hst : st.status = .inProgress)
    (h0 : atts 0 = ⟨.raises e0, none, none⟩)
    (h1 : atts 1 = ⟨.raises e1, none, none⟩)
    (h2 : atts 2 = ⟨.raises e2, none, none⟩)
    (h3 : atts 3 = ⟨.raises e3, none, none⟩)
    (h4 : atts 4 = ⟨.step a, none, none⟩)
    (hname : ¬ a.name = "result") (hdev : a.name ∈ dev) :
    (tenacityRetry5 (CuaAgent.take_action dev) atts st).2 = .ok (some a, false) ∧
    (tenacityRetry5 (CuaAgent.take_action dev) atts st).1.useCalls =
      st.useCalls ++ [a.name] ∧
    (tenacityRetry5 (CuaAgent.take_action dev) atts st).1.recorded =
      st.recorded ++ [a] := by
  refine ⟨?_, ?_, ?_⟩ <;>
    simp [tenacityRetry5, retryGo, CuaAgent.take_action, CuaAgent.fail_posting,
      h0, h1, h2, h3, h4, hst, hname, hdev]

/-- Witness for C3's amended theorem at a concrete schedule. -/
theorem C3_amended_retry_witness :
    (tenacityRetry5 (CuaAgent.take_action ["click"])
        (fun i => if i < 4 then ⟨.raises (.err "api down"), none, none⟩
                  else ⟨.step ⟨"click", []⟩, none, none⟩) cuaInit).2 =
      .ok (some ⟨"click", []⟩, false) ∧
    (tenacityRetry5 (CuaAgent.take_action ["click"])
        (fun i => if i < 4 then ⟨.raises (.err "api down"), none, none⟩
                  else ⟨.step ⟨"click", []⟩, none, none⟩) cuaInit).1.useCalls =
      cuaInit.useCalls ++ ["click"] :=
  ⟨(C3_amended_retry ["click"] _ cuaInit ⟨"click", []⟩ _ _ _ _ rfl rfl rfl rfl rfl
      rfl (by decide) (by decide)).1,
   (C3_amended_retry ["click"] _ cuaInit ⟨"click", []⟩ _ _ _ _ rfl rfl rfl rfl rfl
      rfl (by decide) (by decide)).2.1⟩

/-- C6 counterexample: when the retry budget is exhausted (five attempts all
raising `boom`), the task is marked FAILED but the stored error field is the
string of tenacity's `RetryError` wrapper — `solve_task` catches the
`RetryError` that `stop_after_attempt(5)` raises (no `reraise=True`) and
stores `str(e)` of it — not the root cause string `boom`. -/
theorem C6_counterexample :
    (CuaAgent.solve_task_step ["click"]
        (fun _ => ⟨.raises (.err "boom"), none, none⟩) cuaInit).1.status =
      .failed ∧
    (CuaAgent.solve_task_step ["click"]
        (fun _ => ⟨.raises (.err "boom"), none, none⟩) cuaInit).1.error =
      some (errStr (.retryError (.err "boom"))) ∧
    ¬ (CuaAgent.solve_task_step ["click"]
        (fun _ => ⟨.raises (.err "boom"), none, none⟩) cuaInit).1.error =
      some "boom" :=
  ⟨rfl, rfl, by decide⟩

/-- C6 amended: exhausting the five-attempt retry budget marks the task
FAILED and stores the string of the `RetryError` wrapping the LAST attempt's
exception — not the root cause error string itself — in the task's error
field; the loop then stops (no step result). -/
theorem C6_amended_error_field (dev : List String)
    (atts : Nat → CuaAgent.CuaAttempt) (st : CuaAgent.CuaSt)
    (e0 e1 e2 e3 e4 : PyErr) (hst : st.status = .inProgress)
    (h0 : atts 0 = ⟨.raises e0, none, none⟩)
    (h1 : atts 1 = ⟨.raises e1, none, none⟩)
    (h2 : atts 2 = ⟨.raises e2, none, none⟩)
    (h3 : atts 3 = ⟨.raises e3, none, none⟩)
    (h4 : atts 4 = ⟨.raises e4, none, none⟩) :
    (CuaAgent.solve_task_step dev atts st).1.status = .failed ∧
    (CuaAgent.solve_task_step dev atts st).1.error =
      some (errStr (.retryError e4)) ∧
    (CuaAgent.solve_task_step dev atts st).2 = none := by
  refine ⟨?_, ?_, ?_⟩ <;>
    simp [CuaAgent.solve_task_step, tenacityRetry5, retryGo,
      CuaAgent.take_action, CuaAgent.fail_posting, h0, h1, h2, h3, h4, hst]

/-- Witness for C6's amended theorem at a concrete all-failing schedule. -/
theorem C6_amended_error_field_witness :
    (CuaAgent.solve_task_step ["click"]
        (fun _ => ⟨.raises (.err "boom"), none, none⟩) cuaInit).1.status =
      .failed ∧
    (CuaAgent.solve_task_step ["click"]
        (fun _ => ⟨.raises (.err "boom"), none, none⟩) cuaInit).1.error =
      some (errStr (.retryError (.err "boom"))) :=
  ⟨(C6_amended_error_field ["click"] _ cuaInit _ _ _ _ _ rfl rfl rfl rfl rfl
      rfl).1,
   (C6_amended_error_field ["click"] _ cuaInit _ _ _ _ _ rfl rfl rfl rfl rfl
      rfl).2.1⟩
